import Mathlib

/-!
# SSL certificate monitor resource (`site24x7/sslcertmonitor.go`)

A shallow embedding of the Terraform resource handlers for the SSL certificate
monitor, together with the parts of the Go standard library and of the
Terraform / Site24x7 client libraries that the handlers rely on.

* Go strings are values of `String`; comparison is by code point, which agrees
  with Go's byte-wise comparison on valid UTF-8.
* Go's `int` is the 64-bit signed integer; values are `Int` and the range check
  is explicit in `strconv.Atoi`.
* Go's `error` is `Option Error` (`none` is `nil`); `(value, error)` results
  are `Except Error value`.
* A Go `map[string]interface{}` whose values are strings is the list of its
  entries in iteration order (`GoMap`); a well-formed map has pairwise
  distinct keys.
* Remote calls are answered by a `Client` record; every handler returns, next
  to its result, the local state after the call and the remote calls it made.
-/

deriving instance DecidableEq for Except

namespace Site24x7

/-! ## Errors -/

/-- The two failure kinds of `strconv`: `ErrSyntax` and `ErrRange`. -/
inductive NumErr where
  | ErrSyntax
  | ErrRange
deriving DecidableEq, Repr

/-- Go `error` values that reach this file: `*strconv.NumError`, the status
errors of the Site24x7 client, and any other error. -/
inductive Error where
  | num (fn : String) (num : String) (err : NumErr)
  | status (code : Nat) (message : String)
  | other (message : String)
deriving DecidableEq, Repr

/-- Status code test of `apierrors.HasStatusCode`: true exactly for a status
error carrying the given code; false for `nil` and for every other error. -/
def apierrors.HasStatusCode (err : Option Error) (statusCode : Nat) : Bool :=
  match err with
  | some (Error.status code _) => code == statusCode
  | _ => false

/-- Not-found classification `apierrors.IsNotFound`: a status error with HTTP status 404. -/
def apierrors.IsNotFound (err : Option Error) : Bool :=
  apierrors.HasStatusCode err 404

/-! ## Strings: ordering, sorting, parsing and printing integers -/

/-- Lexicographic comparison of character sequences (Go's `<` on strings). -/
def lexLess : List Char → List Char → Bool
  | [], [] => false
  | [], _ :: _ => true
  | _ :: _, [] => false
  | a :: as, b :: bs =>
    if a.toNat < b.toNat then true
    else if b.toNat < a.toNat then false
    else lexLess as bs

/-- Go's `a < b` on strings. -/
def stringLess (a b : String) : Bool := lexLess a.data b.data

/-- Go's `a <= b` on strings, as the negation of `b < a`. -/
def stringLE (a b : String) : Prop := stringLess b a = false

instance stringLE.decidable : DecidableRel stringLE :=
  fun a b => inferInstanceAs (Decidable (stringLess b a = false))

/-- Sorting of `sort.Strings`: the argument in increasing order. The sorted
arrangement of a list of strings is unique, so the algorithm is immaterial. -/
def sort.Strings (keys : List String) : List String :=
  keys.insertionSort stringLE

/-- Largest `uint64`. -/
def maxUint64 : Nat := 2 ^ 64 - 1

/-- Bit size of Go's `int`. -/
def intSize : Nat := 64

/-- Digit loop of `strconv.ParseUint` for base 10 and bit size 64: each byte
must be a decimal digit, and the accumulated value must stay within `uint64`. -/
def strconv.parseUintLoop : List Char → Nat → Except NumErr Nat
  | [], n => .ok n
  | c :: cs, n =>
    if c.toNat < 48 ∨ 57 < c.toNat then .error .ErrSyntax
    else if n ≥ maxUint64 / 10 + 1 then .error .ErrRange
    else if n * 10 + (c.toNat - 48) > maxUint64 then .error .ErrRange
    else strconv.parseUintLoop cs (n * 10 + (c.toNat - 48))

/-- Unsigned parse `strconv.ParseUint(s, 10, 64)`. -/
def strconv.ParseUint (s : List Char) : Except NumErr Nat :=
  match s with
  | [] => .error .ErrSyntax
  | _ :: _ => strconv.parseUintLoop s 0

/-- Integer parse `strconv.Atoi`: an optional sign followed by decimal digits, within
the range of `int`. (The fast path for short inputs computes the same result
as the `ParseInt(s, 10, 0)` path modelled here.) -/
def strconv.Atoi (s : String) : Except Error Int :=
  match s.data with
  | [] => .error (.num "Atoi" s .ErrSyntax)
  | c :: cs =>
    let neg : Bool := c = '-'
    let digits := if c = '+' ∨ c = '-' then cs else c :: cs
    match strconv.ParseUint digits with
    | .error .ErrSyntax => .error (.num "Atoi" s .ErrSyntax)
    | .error .ErrRange => .error (.num "Atoi" s .ErrRange)
    | .ok un =>
      if neg = false ∧ un ≥ 2 ^ (intSize - 1) then .error (.num "Atoi" s .ErrRange)
      else if neg = true ∧ un > 2 ^ (intSize - 1) then .error (.num "Atoi" s .ErrRange)
      else .ok (if neg then -(un : Int) else (un : Int))

/-- Decimal digits of a natural number, most significant first. -/
def decimalDigits (n : Nat) : List Char := Nat.toDigits 10 n

/-- Printing of an integer with the verb `%d` as in `fmt.Sprintf("%d", n)`: decimal digits, with a
leading `-` for negative numbers. -/
def fmt.Sprintf_d (n : Int) : String :=
  match n with
  | Int.ofNat k => String.mk (decimalDigits k)
  | Int.negSucc k => String.mk ('-' :: decimalDigits (k + 1))

/-! ## Go maps from strings to strings -/

/-- A `map[string]interface{}` with string values: its entries, in the order
in which a `range` loop visits them. Keys of a well-formed map are distinct. -/
abbrev GoMap := List (String × String)

/-- Keys of the map, in iteration order (`for k := range m`). -/
def GoMap.keys (m : GoMap) : List String := m.map Prod.fst

/-- Lookup `m[k]` with presence flag. -/
def GoMap.get : GoMap → String → Option String
  | [], _ => none
  | (k', v) :: rest, k => if k' = k then some v else GoMap.get rest k

/-- Lookup `m[k].(string)` for a key taken from the map itself. -/
def GoMap.index (m : GoMap) (k : String) : String := (m.get k).getD ""

/-- Assignment `m[k] = v`: replaces the entry of an existing key, adds a new entry otherwise. -/
def GoMap.set : GoMap → String → String → GoMap
  | [], k, v => [(k, v)]
  | (k', v') :: rest, k, v =>
    if k' = k then (k, v) :: rest else (k', v') :: GoMap.set rest k v

/-- Two maps are equal when every key has the same binding in both. -/
def GoMap.Equal (m₁ m₂ : GoMap) : Prop := ∀ k, m₁.get k = m₂.get k

/-! ## Entities of the Site24x7 API client -/

/-- Entity `api.ActionRef`: an action bound to an alert status (`api.Status` is an `int`). -/
structure api.ActionRef where
  ActionID : String
  AlertType : Int
deriving DecidableEq, Repr

/-- Entity `api.Monitor`, restricted to the fields this resource reads or writes. -/
structure api.Monitor where
  MonitorID : String
  DisplayName : String
  Type_ : String
  DomainName : String
  ExpireDays : Int
  Protocol : String
  Port : Int
  Timeout : Int
  LocationProfileID : String
  NotificationProfileID : String
  ThresholdProfileID : String
  MonitorGroups : List String
  UserGroupIDs : List String
  ActionIDs : List api.ActionRef
deriving DecidableEq, Repr

/-- Entity `api.LocationProfile`; only the identifier is used. -/
structure api.LocationProfile where
  ProfileID : String
deriving DecidableEq, Repr

/-- Entity `api.NotificationProfile`; only the identifier is used. -/
structure api.NotificationProfile where
  ProfileID : String
deriving DecidableEq, Repr

/-- Entity `api.ThresholdProfile`; only the identifier is used. -/
structure api.ThresholdProfile where
  ProfileID : String
deriving DecidableEq, Repr

/-- Entity `api.UserGroup`; only the identifier is used. -/
structure api.UserGroup where
  UserGroupID : String
deriving DecidableEq, Repr

/-! ## Local state: `schema.ResourceData` under `SSLCertMonitorSchema` -/

/-- Local state of one resource: its identity and one typed field per key of
`SSLCertMonitorSchema`. Reading a field is `d.Get(key)` followed by the type
assertion of the source. -/
structure ResourceData where
  id : String
  display_name : String
  domain_name : String
  expire_days : Int
  protocol : String
  port : Int
  timeout : Int
  location_profile_id : String
  notification_profile_id : String
  threshold_profile_id : String
  monitor_groups : List String
  user_group_ids : List String
  actions : GoMap
deriving DecidableEq, Repr

/-- Dynamic values handed to `d.Set` in this file. -/
inductive Value where
  | string (s : String)
  | int (n : Int)
  | stringList (l : List String)
  | stringMap (m : GoMap)
  | thresholdProfile (p : api.ThresholdProfile)
deriving DecidableEq, Repr

/-- Identity read `d.Id()`. -/
def ResourceData.Id (d : ResourceData) : String := d.id

/-- Identity write `d.SetId(id)`. -/
def ResourceData.SetId (d : ResourceData) (id : String) : ResourceData :=
  { d with id := id }

/-- Field write `d.Set(key, value)`, with the returned error discarded as the source does. A
value that fits the schema type of the key is stored; any other value is
rejected by the field writer and the state stays as it was. -/
def ResourceData.Set (d : ResourceData) (key : String) (value : Value) : ResourceData :=
  match key, value with
  | "display_name", .string s => { d with display_name := s }
  | "domain_name", .string s => { d with domain_name := s }
  | "expire_days", .int n => { d with expire_days := n }
  | "protocol", .string s => { d with protocol := s }
  | "port", .int n => { d with port := n }
  | "timeout", .int n => { d with timeout := n }
  | "location_profile_id", .string s => { d with location_profile_id := s }
  | "notification_profile_id", .string s => { d with notification_profile_id := s }
  | "threshold_profile_id", .string s => { d with threshold_profile_id := s }
  | "monitor_groups", .stringList l => { d with monitor_groups := l }
  | "user_group_ids", .stringList l => { d with user_group_ids := l }
  | "actions", .stringMap m => { d with actions := m }
  | _, _ => d

/-! ## Remote collaborators -/

/-- Answers of the remote side: the four default lookups of this package
(`DefaultLocationProfile`, `DefaultNotificationProfile`,
`DefaultThresholdProfile`, `DefaultUserGroup`, defined outside this file and
taken here by their results) and the four calls of `client.Monitors()`. -/
structure Client where
  DefaultLocationProfile : Except Error api.LocationProfile
  DefaultNotificationProfile : Except Error api.NotificationProfile
  DefaultThresholdProfile : Except Error api.ThresholdProfile
  DefaultUserGroup : Except Error api.UserGroup
  Create : api.Monitor → Except Error api.Monitor
  Get : String → Except Error api.Monitor
  Update : api.Monitor → Except Error api.Monitor
  Delete : String → Option Error

/-- One remote call, as recorded in the trace of a handler. -/
inductive Call where
  | DefaultLocationProfile
  | DefaultNotificationProfile
  | DefaultThresholdProfile
  | DefaultUserGroup
  | Create (monitor : api.Monitor)
  | Get (id : String)
  | Update (monitor : api.Monitor)
  | Delete (id : String)
deriving DecidableEq, Repr

/-- True for the four default lookups. -/
def Call.isDefaultLookup : Call → Bool
  | .DefaultLocationProfile => true
  | .DefaultNotificationProfile => true
  | .DefaultThresholdProfile => true
  | .DefaultUserGroup => true
  | _ => false

/-- What running a piece of handler code leaves behind: its return value, the
local state, and the remote calls made, oldest first. -/
structure Outcome (α : Type) where
  result : α
  d : ResourceData
  calls : List Call

/-- Sequencing with early return: on an error nothing further runs; otherwise
the next step runs on the entity and local state reached so far. -/
def Outcome.andThen (o : Outcome (Except Error api.Monitor))
    (next : api.Monitor → ResourceData → Outcome (Except Error api.Monitor)) :
    Outcome (Except Error api.Monitor) :=
  match o.result with
  | .error _ => o
  | .ok monitor =>
    let o' := next monitor o.d
    { result := o'.result, d := o'.d, calls := o.calls ++ o'.calls }

/-! ## Build-Request: `resourceDataToSSLCertMonitor` -/

/-- Loop of lines 187-198: parse each key in turn, stop at the first key that is not
an integer, otherwise emit the pair (action id, status). -/
def actionRefsLoop (actionMap : GoMap) : List String → Except Error (List api.ActionRef)
  | [] => .ok []
  | k :: keys =>
    match strconv.Atoi k with
    | .error err => .error err
    | .ok status =>
      match actionRefsLoop actionMap keys with
      | .error err => .error err
      | .ok actionRefs =>
        .ok ({ ActionID := actionMap.index k, AlertType := status } :: actionRefs)

/-- Lines 178-198: collect the keys, sort them as strings, run the loop. -/
def actionRefsOf (actionMap : GoMap) : Except Error (List api.ActionRef) :=
  let keys := sort.Strings actionMap.keys
  actionRefsLoop actionMap keys

/-- Lines 217-224: default for a blank location profile. -/
def resolveLocationProfile (client : Client) (monitor : api.Monitor) (d : ResourceData) :
    Outcome (Except Error api.Monitor) :=
  if monitor.LocationProfileID = "" then
    match client.DefaultLocationProfile with
    | .error err => { result := .error err, d := d, calls := [.DefaultLocationProfile] }
    | .ok profile =>
      { result := .ok { monitor with LocationProfileID := profile.ProfileID },
        d := d.Set "location_profile_id" (.string profile.ProfileID),
        calls := [.DefaultLocationProfile] }
  else { result := .ok monitor, d := d, calls := [] }

/-- Lines 226-233: default for a blank notification profile. -/
def resolveNotificationProfile (client : Client) (monitor : api.Monitor) (d : ResourceData) :
    Outcome (Except Error api.Monitor) :=
  if monitor.NotificationProfileID = "" then
    match client.DefaultNotificationProfile with
    | .error err => { result := .error err, d := d, calls := [.DefaultNotificationProfile] }
    | .ok profile =>
      { result := .ok { monitor with NotificationProfileID := profile.ProfileID },
        d := d.Set "notification_profile_id" (.string profile.ProfileID),
        calls := [.DefaultNotificationProfile] }
  else { result := .ok monitor, d := d, calls := [] }

/-- Lines 235-242: default for a blank threshold profile. The entity receives
`profile.ProfileID`; `d.Set` receives the profile itself. -/
def resolveThresholdProfile (client : Client) (monitor : api.Monitor) (d : ResourceData) :
    Outcome (Except Error api.Monitor) :=
  if monitor.ThresholdProfileID = "" then
    match client.DefaultThresholdProfile with
    | .error err => { result := .error err, d := d, calls := [.DefaultThresholdProfile] }
    | .ok profile =>
      { result := .ok { monitor with ThresholdProfileID := profile.ProfileID },
        d := d.Set "threshold_profile_id" (.thresholdProfile profile),
        calls := [.DefaultThresholdProfile] }
  else { result := .ok monitor, d := d, calls := [] }

/-- Lines 244-251: default for an empty list of user groups. -/
def resolveUserGroup (client : Client) (monitor : api.Monitor) (d : ResourceData) :
    Outcome (Except Error api.Monitor) :=
  if monitor.UserGroupIDs.length = 0 then
    match client.DefaultUserGroup with
    | .error err => { result := .error err, d := d, calls := [.DefaultUserGroup] }
    | .ok userGroup =>
      { result := .ok { monitor with UserGroupIDs := [userGroup.UserGroupID] },
        d := d.Set "user_group_ids" (.stringList [userGroup.UserGroupID]),
        calls := [.DefaultUserGroup] }
  else { result := .ok monitor, d := d, calls := [] }

/-- Build-Request `resourceDataToSSLCertMonitor`: the entity built from the local state, or the first
error met; the local state with the defaults written back; the lookups made. -/
def resourceDataToSSLCertMonitor (d : ResourceData) (client : Client) :
    Outcome (Except Error api.Monitor) :=
  let userGroupIDs := d.user_group_ids
  let monitorGroups := d.monitor_groups
  match actionRefsOf d.actions with
  | .error err => { result := .error err, d := d, calls := [] }
  | .ok actionRefs =>
    let SSLCertMonitor : api.Monitor :=
      { MonitorID := d.Id
        DisplayName := d.display_name
        Type_ := "SSL_CERT"
        DomainName := d.domain_name
        ExpireDays := d.expire_days
        Protocol := d.protocol
        Port := d.port
        Timeout := d.timeout
        LocationProfileID := d.location_profile_id
        NotificationProfileID := d.notification_profile_id
        ThresholdProfileID := d.threshold_profile_id
        MonitorGroups := monitorGroups
        UserGroupIDs := userGroupIDs
        ActionIDs := actionRefs }
    (((resolveLocationProfile client SSLCertMonitor d).andThen
      (resolveNotificationProfile client)).andThen
      (resolveThresholdProfile client)).andThen
      (resolveUserGroup client)

/-! ## Apply-Response: `updateSSLCertMonitorResourceData` -/

/-- Lines 269-272: the map filled from the action list, one assignment per pair. -/
def actionsOf (actionIDs : List api.ActionRef) : GoMap :=
  actionIDs.foldl (fun actions action => actions.set (fmt.Sprintf_d action.AlertType) action.ActionID) []

/-- Apply-Response `updateSSLCertMonitorResourceData`: every field of the local state is set from the entity. -/
def updateSSLCertMonitorResourceData (d : ResourceData) (monitor : api.Monitor) : ResourceData :=
  let d := d.Set "display_name" (.string monitor.DisplayName)
  let d := d.Set "domain_name" (.string monitor.DomainName)
  let d := d.Set "expire_days" (.int monitor.ExpireDays)
  let d := d.Set "protocol" (.string monitor.Protocol)
  let d := d.Set "port" (.int monitor.Port)
  let d := d.Set "timeout" (.int monitor.Timeout)
  let d := d.Set "location_profile_id" (.string monitor.LocationProfileID)
  let d := d.Set "notification_profile_id" (.string monitor.NotificationProfileID)
  let d := d.Set "threshold_profile_id" (.string monitor.ThresholdProfileID)
  let d := d.Set "monitor_groups" (.stringList monitor.MonitorGroups)
  let d := d.Set "user_group_ids" (.stringList monitor.UserGroupIDs)
  let actions := actionsOf monitor.ActionIDs
  d.Set "actions" (.stringMap actions)

/-! ## Lifecycle handlers -/

/-- Handler `SSLCertMonitorCreate`. -/
def SSLCertMonitorCreate (d : ResourceData) (client : Client) : Outcome (Option Error) :=
  let built := resourceDataToSSLCertMonitor d client
  match built.result with
  | .error err => { result := some err, d := built.d, calls := built.calls }
  | .ok SSLCertMonitor =>
    match client.Create SSLCertMonitor with
    | .error err =>
      { result := some err, d := built.d, calls := built.calls ++ [.Create SSLCertMonitor] }
    | .ok created =>
      { result := none, d := built.d.SetId created.MonitorID,
        calls := built.calls ++ [.Create SSLCertMonitor] }

/-- Handler `SSLCertMonitorRead`. -/
def SSLCertMonitorRead (d : ResourceData) (client : Client) : Outcome (Option Error) :=
  match client.Get d.Id with
  | .error err => { result := some err, d := d, calls := [.Get d.Id] }
  | .ok SSLCertMonitor =>
    { result := none, d := updateSSLCertMonitorResourceData d SSLCertMonitor,
      calls := [.Get d.Id] }

/-- Handler `SSLCertMonitorUpdate`. -/
def SSLCertMonitorUpdate (d : ResourceData) (client : Client) : Outcome (Option Error) :=
  let built := resourceDataToSSLCertMonitor d client
  match built.result with
  | .error err => { result := some err, d := built.d, calls := built.calls }
  | .ok SSLCertMonitor =>
    match client.Update SSLCertMonitor with
    | .error err =>
      { result := some err, d := built.d, calls := built.calls ++ [.Update SSLCertMonitor] }
    | .ok updated =>
      { result := none, d := built.d.SetId updated.MonitorID,
        calls := built.calls ++ [.Update SSLCertMonitor] }

/-- Handler `SSLCertMonitorDelete`. -/
def SSLCertMonitorDelete (d : ResourceData) (client : Client) : Outcome (Option Error) :=
  let err := client.Delete d.Id
  if apierrors.IsNotFound err then { result := none, d := d, calls := [.Delete d.Id] }
  else { result := err, d := d, calls := [.Delete d.Id] }

/-- Handler `SSLCertMonitorExists`. -/
def SSLCertMonitorExists (d : ResourceData) (client : Client) : Outcome (Bool × Option Error) :=
  let err : Option Error :=
    match client.Get d.Id with
    | .error e => some e
    | .ok _ => none
  if apierrors.IsNotFound err then { result := (false, none), d := d, calls := [.Get d.Id] }
  else if err ≠ none then { result := (false, err), d := d, calls := [.Get d.Id] }
  else { result := (true, none), d := d, calls := [.Get d.Id] }


/-! ## Auxiliary definitions for the proofs -/

/-- Value of a sequence of decimal digits read from the left, starting from `n`. -/
def digitsValue (n : Nat) (ds : List Char) : Nat :=
  ds.foldl (fun acc c => acc * 10 + (c.toNat - 48)) n

/-- Reads back what `fmt.Sprintf_d` printed. -/
def readDecimal (s : String) : Int :=
  match s.data with
  | [] => 0
  | c :: cs => if c = '-' then -(digitsValue 0 cs : Int) else (digitsValue 0 (c :: cs) : Int)

/-- A local state with every defaulted field blank and two actions. -/
def sampleData : ResourceData :=
  { id := "", display_name := "cert", domain_name := "example.com", expire_days := 30,
    protocol := "HTTPS", port := 443, timeout := 10, location_profile_id := "",
    notification_profile_id := "", threshold_profile_id := "", monitor_groups := [],
    user_group_ids := [], actions := [("2", "A1"), ("10", "A2")] }

/-- A remote side on which every lookup and `Create` / `Update` succeed, and
on which `Get` and `Delete` report that the monitor is absent. -/
def sampleClient : Client :=
  { DefaultLocationProfile := .ok { ProfileID := "LP1" }
    DefaultNotificationProfile := .ok { ProfileID := "NP1" }
    DefaultThresholdProfile := .ok { ProfileID := "TP1" }
    DefaultUserGroup := .ok { UserGroupID := "UG1" }
    Create := fun m => .ok { m with MonitorID := "M1" }
    Get := fun _ => .error (.status 404 "not found")
    Update := fun m => .ok m
    Delete := fun _ => some (.status 404 "not found") }

/-! ## Properties of the string order and of sorting -/

theorem Char.toNat_eq_imp {a b : Char} (h : a.toNat = b.toNat) : a = b := by
  rw [← Char.ofNat_toNat a, ← Char.ofNat_toNat b, h]

theorem lexLess_irrefl (l : List Char) : lexLess l l = false := by
  induction l with
  | nil => rfl
  | cons a as ih => simp [lexLess, ih]

theorem lexLess_asymm : ∀ (a b : List Char), lexLess a b = true → lexLess b a = false
  | [], [], h => by simp [lexLess] at h
  | [], _ :: _, _ => by simp [lexLess]
  | _ :: _, [], h => by simp [lexLess] at h
  | a :: as, b :: bs, h => by
    simp only [lexLess] at h ⊢
    by_cases h1 : a.toNat < b.toNat
    · have h2 : ¬ b.toNat < a.toNat := by omega
      simp [h2, h1]
    · by_cases h2 : b.toNat < a.toNat
      · simp [h1, h2] at h
      · simp only [h1, h2, if_false] at h ⊢
        exact lexLess_asymm as bs h

theorem lexLess_antisymm : ∀ (a b : List Char),
    lexLess a b = false → lexLess b a = false → a = b
  | [], [], _, _ => rfl
  | [], _ :: _, h, _ => by simp [lexLess] at h
  | _ :: _, [], _, h => by simp [lexLess] at h
  | a :: as, b :: bs, h, h' => by
    simp only [lexLess] at h h'
    by_cases h1 : a.toNat < b.toNat
    · simp [h1] at h
    · by_cases h2 : b.toNat < a.toNat
      · simp [h2] at h'
      · simp only [h1, h2, if_false] at h h'
        have hab : a = b := Char.toNat_eq_imp (by omega)
        rw [hab, lexLess_antisymm as bs h h']

theorem lexLess_trans_le : ∀ (a b c : List Char),
    lexLess b a = false → lexLess c b = false → lexLess c a = false
  | [], _, [], _, _ => rfl
  | [], _, _ :: _, _, _ => by simp [lexLess]
  | _ :: _, [], _, h, _ => by simp [lexLess] at h
  | _ :: _, _ :: _, [], _, h => by simp [lexLess] at h
  | a :: as, b :: bs, c :: cs, h, h' => by
    simp only [lexLess] at h h' ⊢
    by_cases h1 : b.toNat < a.toNat
    · simp [h1] at h
    · by_cases h2 : c.toNat < b.toNat
      · simp [h2] at h'
      · simp only [h1, h2, if_false] at h h'
        by_cases h3 : a.toNat < b.toNat
        · have h4 : ¬ c.toNat < a.toNat := by omega
          have h5 : a.toNat < c.toNat := by omega
          simp [h4, h5]
        · by_cases h6 : b.toNat < c.toNat
          · have h4 : ¬ c.toNat < a.toNat := by omega
            have h5 : a.toNat < c.toNat := by omega
            simp [h4, h5]
          · have h4 : ¬ c.toNat < a.toNat := by omega
            have h5 : ¬ a.toNat < c.toNat := by omega
            simp only [h3, h6, if_false] at h h'
            simp only [h4, h5, if_false]
            exact lexLess_trans_le as bs cs h h'

instance stringLE.isTotal : IsTotal String stringLE where
  total a b := by
    unfold stringLE stringLess
    cases h : lexLess b.data a.data
    · exact Or.inl rfl
    · exact Or.inr (lexLess_asymm _ _ h)

instance stringLE.isTrans : IsTrans String stringLE where
  trans a b c hab hbc := by
    unfold stringLE stringLess at *
    exact lexLess_trans_le a.data b.data c.data hab hbc

instance stringLE.isAntisymm : IsAntisymm String stringLE where
  antisymm a b hab hba := by
    unfold stringLE stringLess at *
    exact String.ext (lexLess_antisymm a.data b.data hba hab)

theorem stringLess_irrefl (a : String) : stringLess a a = false :=
  lexLess_irrefl a.data

theorem stringLess_of_le_of_ne {a b : String} (h : stringLE a b) (hne : a ≠ b) :
    stringLess a b = true := by
  cases h' : stringLess a b
  · exact absurd (stringLE.isAntisymm.antisymm a b h h') hne
  · rfl

theorem sort_perm (keys : List String) : (sort.Strings keys).Perm keys :=
  List.perm_insertionSort stringLE keys

theorem sort_sorted (keys : List String) : (sort.Strings keys).Sorted stringLE :=
  List.sorted_insertionSort stringLE keys

theorem sort_eq_of_perm {keys₁ keys₂ : List String} (h : keys₁.Perm keys₂) :
    sort.Strings keys₁ = sort.Strings keys₂ :=
  List.eq_of_perm_of_sorted ((sort_perm keys₁).trans (h.trans (sort_perm keys₂).symm))
    (sort_sorted keys₁) (sort_sorted keys₂)

theorem sort_nodup {keys : List String} (h : keys.Nodup) : (sort.Strings keys).Nodup :=
  (sort_perm keys).nodup_iff.mpr h

theorem sort_strict {keys : List String} (h : keys.Nodup) :
    (sort.Strings keys).Pairwise (fun a b => stringLess a b = true) := by
  have h1 : (sort.Strings keys).Pairwise (fun a b => stringLE a b ∧ a ≠ b) :=
    List.Pairwise.and (sort_sorted keys) (sort_nodup h)
  exact h1.imp (fun hab => stringLess_of_le_of_ne hab.1 hab.2)

theorem mem_sort {keys : List String} {k : String} : k ∈ sort.Strings keys ↔ k ∈ keys :=
  (sort_perm keys).mem_iff

/-! ## Printing integers is injective -/

theorem digitChar_toNat : ∀ d, d < 10 → (Nat.digitChar d).toNat = d + 48 := by
  decide

theorem digitsValue_toDigitsCore : ∀ (fuel n : Nat) (acc : List Char), n < fuel →
    digitsValue 0 (Nat.toDigitsCore 10 fuel n acc) = digitsValue n acc := by
  intro fuel
  induction fuel with
  | zero => intro n acc h; omega
  | succ fuel ih =>
    intro n acc h
    have hd : (Nat.digitChar (n % 10)).toNat = n % 10 + 48 :=
      digitChar_toNat _ (Nat.mod_lt _ (by norm_num))
    simp only [Nat.toDigitsCore]
    by_cases h0 : n / 10 = 0
    · simp only [h0, if_true]
      simp only [digitsValue, List.foldl_cons, hd]
      congr 1
      omega
    · simp only [h0, if_false]
      rw [ih (n / 10) _ (by omega)]
      simp only [digitsValue, List.foldl_cons, hd]
      congr 1
      omega

theorem toDigitsCore_digits : ∀ (fuel n : Nat) (acc : List Char) (c : Char),
    c ∈ Nat.toDigitsCore 10 fuel n acc → c ∈ acc ∨ (48 ≤ c.toNat ∧ c.toNat ≤ 57) := by
  intro fuel
  induction fuel with
  | zero => intro n acc c h; exact Or.inl (by simpa [Nat.toDigitsCore] using h)
  | succ fuel ih =>
    intro n acc c h
    have hd : (Nat.digitChar (n % 10)).toNat = n % 10 + 48 :=
      digitChar_toNat _ (Nat.mod_lt _ (by norm_num))
    have hlt : n % 10 < 10 := Nat.mod_lt _ (by norm_num)
    simp only [Nat.toDigitsCore] at h
    by_cases h0 : n / 10 = 0
    · simp only [h0, if_true, List.mem_cons] at h
      rcases h with h | h
      · right; rw [h, hd]; omega
      · exact Or.inl h
    · simp only [h0, if_false] at h
      rcases ih _ _ _ h with h | h
      · rcases List.mem_cons.mp h with h | h
        · right; rw [h, hd]; omega
        · exact Or.inl h
      · exact Or.inr h

theorem decimalDigits_value (n : Nat) : digitsValue 0 (decimalDigits n) = n := by
  unfold decimalDigits Nat.toDigits
  rw [digitsValue_toDigitsCore _ _ _ (Nat.lt_succ_self n)]
  rfl

theorem decimalDigits_digit {n : Nat} {c : Char} (h : c ∈ decimalDigits n) :
    48 ≤ c.toNat ∧ c.toNat ≤ 57 := by
  rcases toDigitsCore_digits _ _ _ _ h with h | h
  · simp at h
  · exact h

theorem readDecimal_Sprintf_d (n : Int) : readDecimal (fmt.Sprintf_d n) = n := by
  cases n with
  | ofNat k =>
    simp only [fmt.Sprintf_d, readDecimal]
    cases hds : decimalDigits k with
    | nil =>
      have := decimalDigits_value k
      rw [hds] at this
      simp [digitsValue] at this
      simp [← this]
    | cons c cs =>
      have hc : c ≠ '-' := by
        intro hc
        have := @decimalDigits_digit k c (by rw [hds]; simp)
        rw [hc] at this
        revert this
        decide
      simp only [hc, if_false]
      rw [← hds, decimalDigits_value]
      rfl
  | negSucc k =>
    simp only [fmt.Sprintf_d, readDecimal, if_true]
    rw [decimalDigits_value]
    rfl

theorem Sprintf_d_injective {a b : Int} (h : fmt.Sprintf_d a = fmt.Sprintf_d b) : a = b := by
  rw [← readDecimal_Sprintf_d a, ← readDecimal_Sprintf_d b, h]

/-! ## Properties of maps -/

theorem GoMap.get_set (m : GoMap) (k v k' : String) :
    (m.set k v).get k' = if k = k' then some v else m.get k' := by
  induction m with
  | nil => simp [GoMap.set, GoMap.get]
  | cons e rest ih =>
    obtain ⟨k₀, v₀⟩ := e
    by_cases h : k₀ = k
    · subst h
      by_cases h' : k₀ = k' <;> simp [GoMap.set, GoMap.get, h']
    · by_cases h' : k = k'
      · subst h'
        simp [GoMap.set, GoMap.get, h, ih]
      · by_cases h'' : k₀ = k'
        · subst h''
          simp [GoMap.set, GoMap.get, h, h']
        · simp [GoMap.set, GoMap.get, h, h', h'', ih]

theorem GoMap.mem_keys_set (m : GoMap) (k v k' : String) :
    k' ∈ (m.set k v).keys ↔ k' = k ∨ k' ∈ m.keys := by
  induction m with
  | nil => simp [GoMap.set, GoMap.keys]
  | cons e rest ih =>
    obtain ⟨k₀, v₀⟩ := e
    by_cases h : k₀ = k
    · subst h
      simp [GoMap.set, GoMap.keys]
    · have ih' : k' ∈ List.map Prod.fst (GoMap.set rest k v) ↔
          k' = k ∨ k' ∈ List.map Prod.fst rest := ih
      simp only [GoMap.set, GoMap.keys, h, if_false, List.map_cons, List.mem_cons, ih']
      tauto

theorem GoMap.nodup_keys_set (m : GoMap) (k v : String) (h : m.keys.Nodup) :
    (m.set k v).keys.Nodup := by
  induction m with
  | nil => simp [GoMap.set, GoMap.keys]
  | cons e rest ih =>
    obtain ⟨k₀, v₀⟩ := e
    have hk : k₀ ∉ GoMap.keys rest ∧ (GoMap.keys rest).Nodup := by
      simpa [GoMap.keys] using h
    by_cases h' : k₀ = k
    · subst h'
      simpa [GoMap.set, GoMap.keys] using h
    · have hmem := GoMap.mem_keys_set rest k v k₀
      have hnd : (GoMap.keys (GoMap.set rest k v)).Nodup := ih hk.2
      have hnot : k₀ ∉ GoMap.keys (GoMap.set rest k v) := by
        rw [hmem]
        rintro (h1 | h1)
        · exact h' h1
        · exact hk.1 h1
      simp only [GoMap.set, h', if_false]
      exact List.nodup_cons.mpr ⟨hnot, hnd⟩

theorem GoMap.get_eq_none_iff (m : GoMap) (k : String) : m.get k = none ↔ k ∉ m.keys := by
  induction m with
  | nil => simp [GoMap.get, GoMap.keys]
  | cons e rest ih =>
    obtain ⟨k₀, v₀⟩ := e
    have ih' : GoMap.get rest k = none ↔ k ∉ List.map Prod.fst rest := ih
    by_cases h : k₀ = k
    · simp [GoMap.get, GoMap.keys, h]
    · have h' : ¬ k = k₀ := fun e => h e.symm
      simp [GoMap.get, GoMap.keys, h, h', ih']

theorem GoMap.get_of_mem_keys (m : GoMap) (k : String) (h : k ∈ m.keys) :
    m.get k = some (m.index k) := by
  cases hg : m.get k with
  | none => exact absurd h ((GoMap.get_eq_none_iff m k).mp hg)
  | some v => simp [GoMap.index, hg]

theorem GoMap.get_eq_some_iff (m : GoMap) (h : m.keys.Nodup) (k v : String) :
    m.get k = some v ↔ (k, v) ∈ m := by
  induction m with
  | nil => simp [GoMap.get]
  | cons e rest ih =>
    obtain ⟨k₀, v₀⟩ := e
    have hk : k₀ ∉ GoMap.keys rest ∧ (GoMap.keys rest).Nodup := by
      simpa [GoMap.keys] using h
    by_cases h' : k₀ = k
    · subst h'
      have hnot : (k₀, v) ∉ rest := fun hm =>
        hk.1 (List.mem_map.mpr ⟨(k₀, v), hm, rfl⟩)
      simp only [GoMap.get, if_true, Option.some.injEq, List.mem_cons, Prod.mk.injEq, true_and]
      constructor
      · intro e; exact Or.inl e.symm
      · rintro (e | e)
        · exact e.symm
        · exact absurd e hnot
    · have h'' : ¬ k = k₀ := fun e => h' e.symm
      simp [GoMap.get, h', h'', ih hk.2]

theorem GoMap.get_perm {m₁ m₂ : GoMap} (hp : m₂.Perm m₁) (h : m₁.keys.Nodup) (k : String) :
    m₂.get k = m₁.get k := by
  have h₂ : m₂.keys.Nodup := (hp.map Prod.fst).nodup_iff.mpr h
  apply Option.ext
  intro v
  show m₂.get k = some v ↔ m₁.get k = some v
  rw [GoMap.get_eq_some_iff m₂ h₂, GoMap.get_eq_some_iff m₁ h]
  exact hp.mem_iff

/-! ## Properties of the two conversions of `actions` -/

theorem actionRefsLoop_congr (m₁ m₂ : GoMap) (h : ∀ k, m₂.get k = m₁.get k) (keys : List String) :
    actionRefsLoop m₂ keys = actionRefsLoop m₁ keys := by
  induction keys with
  | nil => rfl
  | cons k keys ih => simp [actionRefsLoop, ih, GoMap.index, h]

theorem actionRefsLoop_ok (P : String → Int → Prop) (m : GoMap) (keys : List String)
    (h : ∀ k ∈ keys, ∃ n, strconv.Atoi k = .ok n ∧ P k n) :
    ∃ refs, actionRefsLoop m keys = .ok refs ∧
      List.Forall₂ (fun k (ref : api.ActionRef) =>
        ref.ActionID = m.index k ∧ strconv.Atoi k = .ok ref.AlertType ∧ P k ref.AlertType)
        keys refs := by
  induction keys with
  | nil => exact ⟨[], rfl, List.Forall₂.nil⟩
  | cons k keys ih =>
    obtain ⟨n, hn, hP⟩ := h k (List.mem_cons_self _ _)
    obtain ⟨refs, hrefs, hall⟩ := ih (fun k' hk' => h k' (List.mem_cons_of_mem _ hk'))
    refine ⟨{ ActionID := m.index k, AlertType := n } :: refs, ?_, ?_⟩
    · simp [actionRefsLoop, hn, hrefs]
    · exact List.Forall₂.cons ⟨rfl, hn, hP⟩ hall

theorem actionRefsLoop_error (m : GoMap) (keys : List String)
    (h : ∃ k ∈ keys, ∀ n, strconv.Atoi k ≠ .ok n) :
    ∃ err, actionRefsLoop m keys = .error err ∧ ∃ k ∈ keys, strconv.Atoi k = .error err := by
  induction keys with
  | nil => simp at h
  | cons k keys ih =>
    cases hk : strconv.Atoi k with
    | error err =>
      exact ⟨err, by simp [actionRefsLoop, hk], k, List.mem_cons_self _ _, hk⟩
    | ok n =>
      obtain ⟨k', hk', hbad⟩ := h
      rcases List.mem_cons.mp hk' with e | e
      · subst e
        exact absurd hk (hbad n)
      · obtain ⟨err, herr, k₀, hk₀, hk₀'⟩ := ih ⟨k', e, hbad⟩
        exact ⟨err, by simp [actionRefsLoop, hk, herr], k₀, List.mem_cons_of_mem _ hk₀, hk₀'⟩

theorem actionsOf_get_aux (actionIDs : List api.ActionRef) (init : GoMap) (k : String) :
    (actionIDs.foldl (fun actions action =>
        actions.set (fmt.Sprintf_d action.AlertType) action.ActionID) init).get k =
      ((actionIDs.reverse.find? (fun a => decide (fmt.Sprintf_d a.AlertType = k))).map
        (fun a => a.ActionID)).or (init.get k) := by
  induction actionIDs generalizing init with
  | nil => simp
  | cons a rest ih =>
    rw [List.foldl_cons, ih, GoMap.get_set, List.reverse_cons, List.find?_append]
    cases hf : List.find? (fun a => decide (fmt.Sprintf_d a.AlertType = k)) rest.reverse with
    | some b => simp
    | none =>
      by_cases hk : fmt.Sprintf_d a.AlertType = k <;> simp [hk, List.find?]

theorem actionsOf_get (actionIDs : List api.ActionRef) (k : String) :
    (actionsOf actionIDs).get k =
      (actionIDs.reverse.find? (fun a => decide (fmt.Sprintf_d a.AlertType = k))).map
        (fun a => a.ActionID) := by
  unfold actionsOf
  rw [actionsOf_get_aux]
  simp [GoMap.get]

theorem actionsOf_keys_aux (actionIDs : List api.ActionRef) (init : GoMap) (k : String) :
    k ∈ (actionIDs.foldl (fun actions action =>
        actions.set (fmt.Sprintf_d action.AlertType) action.ActionID) init).keys ↔
      (∃ a ∈ actionIDs, k = fmt.Sprintf_d a.AlertType) ∨ k ∈ init.keys := by
  induction actionIDs generalizing init with
  | nil => simp
  | cons a rest ih =>
    rw [List.foldl_cons, ih, GoMap.mem_keys_set]
    constructor
    · rintro (⟨b, hb, e⟩ | e | e)
      · exact Or.inl ⟨b, List.mem_cons_of_mem _ hb, e⟩
      · exact Or.inl ⟨a, List.mem_cons_self _ _, e⟩
      · exact Or.inr e
    · rintro (⟨b, hb, e⟩ | e)
      · rcases List.mem_cons.mp hb with hb | hb
        · subst hb
          exact Or.inr (Or.inl e)
        · exact Or.inl ⟨b, hb, e⟩
      · exact Or.inr (Or.inr e)

theorem actionsOf_mem_keys (actionIDs : List api.ActionRef) (k : String) :
    k ∈ (actionsOf actionIDs).keys ↔ ∃ a ∈ actionIDs, k = fmt.Sprintf_d a.AlertType := by
  unfold actionsOf
  rw [actionsOf_keys_aux]
  simp [GoMap.keys]

theorem actionsOf_nodup_aux (actionIDs : List api.ActionRef) (init : GoMap)
    (h : init.keys.Nodup) :
    (actionIDs.foldl (fun actions action =>
        actions.set (fmt.Sprintf_d action.AlertType) action.ActionID) init).keys.Nodup := by
  induction actionIDs generalizing init with
  | nil => simpa using h
  | cons a rest ih =>
    rw [List.foldl_cons]
    exact ih _ (GoMap.nodup_keys_set init _ _ h)

theorem actionsOf_nodup (actionIDs : List api.ActionRef) : (actionsOf actionIDs).keys.Nodup :=
  actionsOf_nodup_aux actionIDs [] (by simp [GoMap.keys])

theorem forall₂_right_mem {R : String → api.ActionRef → Prop} {keys : List String}
    {refs : List api.ActionRef} (h : List.Forall₂ R keys refs) :
    ∀ ref ∈ refs, ∃ k ∈ keys, R k ref := by
  induction h with
  | nil => intro ref href; simp at href
  | cons hr _ ih =>
    intro ref href
    rcases List.mem_cons.mp href with e | e
    · subst e
      exact ⟨_, List.mem_cons_self _ _, hr⟩
    · obtain ⟨k, hk, hR⟩ := ih ref e
      exact ⟨k, List.mem_cons_of_mem _ hk, hR⟩

theorem forall₂_left_mem {R : String → api.ActionRef → Prop} {keys : List String}
    {refs : List api.ActionRef} (h : List.Forall₂ R keys refs) :
    ∀ k ∈ keys, ∃ ref ∈ refs, R k ref := by
  induction h with
  | nil => intro k hk; simp at hk
  | cons hr _ ih =>
    intro k hk
    rcases List.mem_cons.mp hk with e | e
    · subst e
      exact ⟨_, List.mem_cons_self _ _, hr⟩
    · obtain ⟨ref, href, hR⟩ := ih k e
      exact ⟨ref, List.mem_cons_of_mem _ href, hR⟩

theorem Set_display_name (d : ResourceData) (s : String) :
    d.Set "display_name" (.string s) = { d with display_name := s } := rfl

theorem Set_domain_name (d : ResourceData) (s : String) :
    d.Set "domain_name" (.string s) = { d with domain_name := s } := rfl

theorem Set_expire_days (d : ResourceData) (n : Int) :
    d.Set "expire_days" (.int n) = { d with expire_days := n } := rfl

theorem Set_protocol (d : ResourceData) (s : String) :
    d.Set "protocol" (.string s) = { d with protocol := s } := rfl

theorem Set_port (d : ResourceData) (n : Int) :
    d.Set "port" (.int n) = { d with port := n } := rfl

theorem Set_timeout (d : ResourceData) (n : Int) :
    d.Set "timeout" (.int n) = { d with timeout := n } := rfl

theorem Set_location_profile_id (d : ResourceData) (s : String) :
    d.Set "location_profile_id" (.string s) = { d with location_profile_id := s } := rfl

theorem Set_notification_profile_id (d : ResourceData) (s : String) :
    d.Set "notification_profile_id" (.string s) = { d with notification_profile_id := s } := rfl

theorem Set_threshold_profile_id (d : ResourceData) (s : String) :
    d.Set "threshold_profile_id" (.string s) = { d with threshold_profile_id := s } := rfl

theorem Set_threshold_profile_id_profile (d : ResourceData) (p : api.ThresholdProfile) :
    d.Set "threshold_profile_id" (.thresholdProfile p) = d := rfl

theorem Set_monitor_groups (d : ResourceData) (l : List String) :
    d.Set "monitor_groups" (.stringList l) = { d with monitor_groups := l } := rfl

theorem Set_user_group_ids (d : ResourceData) (l : List String) :
    d.Set "user_group_ids" (.stringList l) = { d with user_group_ids := l } := rfl

theorem Set_actions (d : ResourceData) (m : GoMap) :
    d.Set "actions" (.stringMap m) = { d with actions := m } := rfl

theorem update_actions (d : ResourceData) (monitor : api.Monitor) :
    (updateSSLCertMonitorResourceData d monitor).actions = actionsOf monitor.ActionIDs := by
  unfold updateSSLCertMonitorResourceData
  simp only [Set_actions]

theorem andThen_ok {o : Outcome (Except Error api.Monitor)}
    {next : api.Monitor → ResourceData → Outcome (Except Error api.Monitor)} {e : api.Monitor}
    (h : (o.andThen next).result = .ok e) :
    ∃ m, o.result = .ok m ∧ (next m o.d).result = .ok e := by
  unfold Outcome.andThen at h
  cases ho : o.result with
  | error err => simp [ho] at h
  | ok m => exact ⟨m, rfl, by simpa [ho] using h⟩

theorem resolveLocationProfile_actionIDs {client : Client} {m e : api.Monitor} {d : ResourceData}
    (h : (resolveLocationProfile client m d).result = .ok e) : e.ActionIDs = m.ActionIDs := by
  unfold resolveLocationProfile at h
  split at h
  · split at h
    · simp at h
    · simp only [Except.ok.injEq] at h
      rw [← h]
  · simp only [Except.ok.injEq] at h
    rw [← h]

theorem resolveNotificationProfile_actionIDs {client : Client} {m e : api.Monitor}
    {d : ResourceData} (h : (resolveNotificationProfile client m d).result = .ok e) :
    e.ActionIDs = m.ActionIDs := by
  unfold resolveNotificationProfile at h
  split at h
  · split at h
    · simp at h
    · simp only [Except.ok.injEq] at h
      rw [← h]
  · simp only [Except.ok.injEq] at h
    rw [← h]

theorem resolveThresholdProfile_actionIDs {client : Client} {m e : api.Monitor}
    {d : ResourceData} (h : (resolveThresholdProfile client m d).result = .ok e) :
    e.ActionIDs = m.ActionIDs := by
  unfold resolveThresholdProfile at h
  split at h
  · split at h
    · simp at h
    · simp only [Except.ok.injEq] at h
      rw [← h]
  · simp only [Except.ok.injEq] at h
    rw [← h]

theorem resolveUserGroup_actionIDs {client : Client} {m e : api.Monitor}
    {d : ResourceData} (h : (resolveUserGroup client m d).result = .ok e) :
    e.ActionIDs = m.ActionIDs := by
  unfold resolveUserGroup at h
  split at h
  · split at h
    · simp at h
    · simp only [Except.ok.injEq] at h
      rw [← h]
  · simp only [Except.ok.injEq] at h
    rw [← h]

theorem build_actionIDs {d : ResourceData} {client : Client} {e : api.Monitor}
    (h : (resourceDataToSSLCertMonitor d client).result = .ok e) :
    actionRefsOf d.actions = .ok e.ActionIDs := by
  unfold resourceDataToSSLCertMonitor at h
  cases hrefs : actionRefsOf d.actions with
  | error err => simp [hrefs] at h
  | ok actionRefs =>
    simp only [hrefs] at h
    obtain ⟨m₃, h₃, h₄⟩ := andThen_ok h
    obtain ⟨m₂, h₂, h₃'⟩ := andThen_ok h₃
    obtain ⟨m₁, h₁, h₂'⟩ := andThen_ok h₂
    rw [resolveUserGroup_actionIDs h₄, resolveThresholdProfile_actionIDs h₃',
      resolveNotificationProfile_actionIDs h₂', resolveLocationProfile_actionIDs h₁]

theorem roundtrip_get (actionMap : GoMap) (keys : List String) (refs : List api.ActionRef)
    (hkeys : ∀ k, k ∈ keys ↔ k ∈ actionMap.keys)
    (hall : List.Forall₂ (fun k (ref : api.ActionRef) =>
      ref.ActionID = actionMap.index k ∧ fmt.Sprintf_d ref.AlertType = k) keys refs)
    (k : String) : (actionsOf refs).get k = actionMap.get k := by
  rw [actionsOf_get]
  cases hf : refs.reverse.find? (fun a => decide (fmt.Sprintf_d a.AlertType = k)) with
  | none =>
    have hnot : k ∉ actionMap.keys := by
      intro hk
      obtain ⟨ref, href, _, hR⟩ := forall₂_left_mem hall k ((hkeys k).mpr hk)
      have := List.find?_eq_none.mp hf ref (List.mem_reverse.mpr href)
      simp [hR] at this
    simp [(GoMap.get_eq_none_iff actionMap k).mpr hnot]
  | some a =>
    have hp : fmt.Sprintf_d a.AlertType = k := by
      simpa using List.find?_some hf
    have ha : a ∈ refs := List.mem_reverse.mp (List.mem_of_find?_eq_some hf)
    obtain ⟨k', hk', hid, hR⟩ := forall₂_right_mem hall a ha
    have hkk : k' = k := hR.symm.trans hp
    subst hkk
    rw [GoMap.get_of_mem_keys actionMap k' ((hkeys k').mp hk')]
    simp [hid]

theorem profiles_ok (client : Client) (m : api.Monitor) (d : ResourceData)
    (lp : api.LocationProfile) (np : api.NotificationProfile) (tp : api.ThresholdProfile)
    (h₁ : m.LocationProfileID = "" → client.DefaultLocationProfile = .ok lp)
    (h₂ : m.NotificationProfileID = "" → client.DefaultNotificationProfile = .ok np)
    (h₃ : m.ThresholdProfileID = "" → client.DefaultThresholdProfile = .ok tp) :
    ((resolveLocationProfile client m d).andThen (resolveNotificationProfile client)).andThen
        (resolveThresholdProfile client) =
      { result := .ok { m with
          LocationProfileID :=
            if m.LocationProfileID = "" then lp.ProfileID else m.LocationProfileID
          NotificationProfileID :=
            if m.NotificationProfileID = "" then np.ProfileID else m.NotificationProfileID
          ThresholdProfileID :=
            if m.ThresholdProfileID = "" then tp.ProfileID else m.ThresholdProfileID }
        d := { d with
          location_profile_id :=
            if m.LocationProfileID = "" then lp.ProfileID else d.location_profile_id
          notification_profile_id :=
            if m.NotificationProfileID = "" then np.ProfileID else d.notification_profile_id }
        calls :=
          (if m.LocationProfileID = "" then [Call.DefaultLocationProfile] else []) ++
          (if m.NotificationProfileID = "" then [Call.DefaultNotificationProfile] else []) ++
          (if m.ThresholdProfileID = "" then [Call.DefaultThresholdProfile] else []) } := by
  by_cases c₁ : m.LocationProfileID = "" <;> by_cases c₂ : m.NotificationProfileID = "" <;>
    by_cases c₃ : m.ThresholdProfileID = "" <;>
    simp [resolveLocationProfile, resolveNotificationProfile, resolveThresholdProfile,
      Outcome.andThen, c₁, c₂, c₃, h₁, h₂, h₃, Set_location_profile_id,
      Set_notification_profile_id, Set_threshold_profile_id_profile]

theorem build_unconditional (d : ResourceData) (client : Client) :
    (resourceDataToSSLCertMonitor d client).d.id = d.id ∧
    (resourceDataToSSLCertMonitor d client).d.threshold_profile_id = d.threshold_profile_id ∧
    (∀ c ∈ (resourceDataToSSLCertMonitor d client).calls, c.isDefaultLookup = true) ∧
    (d.user_group_ids ≠ [] →
      Call.DefaultUserGroup ∉ (resourceDataToSSLCertMonitor d client).calls ∧
      (resourceDataToSSLCertMonitor d client).d.user_group_ids = d.user_group_ids) := by
  unfold resourceDataToSSLCertMonitor
  cases hrefs : actionRefsOf d.actions with
  | error err => simp
  | ok refs =>
    cases h₁ : client.DefaultLocationProfile <;> cases h₂ : client.DefaultNotificationProfile <;>
      cases h₃ : client.DefaultThresholdProfile <;> cases h₄ : client.DefaultUserGroup <;>
      by_cases c₁ : d.location_profile_id = "" <;>
      by_cases c₂ : d.notification_profile_id = "" <;>
      by_cases c₃ : d.threshold_profile_id = "" <;>
      by_cases c₄ : d.user_group_ids = [] <;>
      simp [resolveLocationProfile, resolveNotificationProfile, resolveThresholdProfile,
        resolveUserGroup, Outcome.andThen, c₁, c₂, c₃, c₄, h₁, h₂, h₃, h₄,
        Set_location_profile_id, Set_notification_profile_id, Set_threshold_profile_id_profile,
        Set_user_group_ids, Call.isDefaultLookup, ResourceData.Id]

theorem sampleData_keys_parse :
    ∀ k ∈ sampleData.actions.keys, ∃ n, strconv.Atoi k = .ok n := by
  intro k hk
  have hk' : k = "2" ∨ k = "10" := by simpa [GoMap.keys, sampleData] using hk
  rcases hk' with e | e
  · subst e
    exact ⟨2, by decide⟩
  · subst e
    exact ⟨10, by decide⟩

theorem imp_exists_swap {α : Type} (a₀ : α) {p : Prop} {q : α → Prop}
    (h : p → ∃ a, q a) : ∃ a, p → q a := by
  by_cases hp : p
  · obtain ⟨a, ha⟩ := h hp
    exact ⟨a, fun _ => ha⟩
  · exact ⟨a₀, fun hp' => absurd hp' hp⟩

theorem sampleData_builds :
    ∃ m, (resourceDataToSSLCertMonitor sampleData sampleClient).result = .ok m := by
  cases h : (resourceDataToSSLCertMonitor sampleData sampleClient).result with
  | ok m => exact ⟨m, rfl⟩
  | error err =>
    have : (resourceDataToSSLCertMonitor sampleData sampleClient).result.toOption.isSome = true := by
      decide
    rw [h] at this
    simp [Except.toOption] at this

/-! ## The claims -/

/-- C1, as stated, fails: the key "05" parses as the integer 5, the list built
from it is [(A1, 5)], and the map rebuilt from that list has the key "5", so
it is not equal to the original map. -/
theorem C1_counterexample :
    (∀ k ∈ GoMap.keys [("05", "A1")], ∃ n, strconv.Atoi k = .ok n) ∧
    actionRefsOf [("05", "A1")] = .ok [{ ActionID := "A1", AlertType := 5 }] ∧
    actionsOf [{ ActionID := "A1", AlertType := 5 }] = [("5", "A1")] ∧
    ¬ GoMap.Equal (actionsOf [{ ActionID := "A1", AlertType := 5 }]) [("05", "A1")] := by
  refine ⟨?_, by decide, by decide, ?_⟩
  · intro k hk
    have hk' : k = "05" := by simpa [GoMap.keys] using hk
    subst hk'
    exact ⟨5, by decide⟩
  · intro h
    have h05 := h "05"
    revert h05
    decide

/-- C1, amended: for every actions mapping whose keys all parse as integers and
each equal the decimal string of the integer they parse to, the list built as
`resourceDataToSSLCertMonitor` does exists, and the mapping rebuilt from it as
`updateSSLCertMonitorResourceData` does is equal to the original; the same
holds through the two functions themselves. -/
theorem C1_roundtrip_canonical (actionMap : GoMap)
    (hcanon : ∀ k ∈ actionMap.keys, ∃ n, strconv.Atoi k = .ok n ∧ fmt.Sprintf_d n = k) :
    (∃ refs, actionRefsOf actionMap = .ok refs ∧ (actionsOf refs).Equal actionMap) ∧
    (∀ (d d' : ResourceData) (client : Client) (e : api.Monitor), d.actions = actionMap →
      (resourceDataToSSLCertMonitor d client).result = .ok e →
      (updateSSLCertMonitorResourceData d' e).actions.Equal actionMap) := by
  have hparse : ∀ k ∈ sort.Strings actionMap.keys,
      ∃ n, strconv.Atoi k = .ok n ∧ fmt.Sprintf_d n = k :=
    fun k hk => hcanon k (mem_sort.mp hk)
  obtain ⟨refs, hrefs, hall⟩ := actionRefsLoop_ok _ actionMap _ hparse
  have hall' : List.Forall₂ (fun k (ref : api.ActionRef) =>
      ref.ActionID = actionMap.index k ∧ fmt.Sprintf_d ref.AlertType = k)
      (sort.Strings actionMap.keys) refs :=
    hall.imp (fun _ _ hR => ⟨hR.1, hR.2.2⟩)
  have hget := roundtrip_get actionMap _ refs (fun k => mem_sort) hall'
  refine ⟨⟨refs, hrefs, hget⟩, ?_⟩
  intro d d' client e hd he
  have hids := build_actionIDs he
  rw [hd] at hids
  have hrefs' : actionRefsOf actionMap = .ok refs := hrefs
  rw [hrefs'] at hids
  rw [update_actions, ← Except.ok.inj hids]
  exact hget

/-- C1, amended, at the mapping with the keys "2" and "10". -/
theorem C1_roundtrip_canonical_witness :
    (∀ k ∈ GoMap.keys [("2", "A1"), ("10", "A2")],
      ∃ n, strconv.Atoi k = .ok n ∧ fmt.Sprintf_d n = k) ∧
    (∃ refs, actionRefsOf [("2", "A1"), ("10", "A2")] = .ok refs ∧
      (actionsOf refs).Equal [("2", "A1"), ("10", "A2")]) :=
  have hcanon : ∀ k ∈ GoMap.keys [("2", "A1"), ("10", "A2")],
      ∃ n, strconv.Atoi k = .ok n ∧ fmt.Sprintf_d n = k := by
    intro k hk
    have hk' : k = "2" ∨ k = "10" := by simpa [GoMap.keys] using hk
    rcases hk' with e | e
    · subst e
      exact ⟨2, by decide, by decide⟩
    · subst e
      exact ⟨10, by decide, by decide⟩
  ⟨hcanon, (C1_roundtrip_canonical [("2", "A1"), ("10", "A2")] hcanon).1⟩

/-- C8: after `updateSSLCertMonitorResourceData`, the local actions mapping
sends the decimal string of every status code s to the action id of the last
pair of the entity's action list whose status is s (no binding when there is
no such pair), its keys are exactly the decimal strings of the statuses in the
list, each once; the list [(A1, 2), (A2, 5)] yields {"2": "A1", "5": "A2"}. -/
theorem C8_update_actions_last_wins (d : ResourceData) (monitor : api.Monitor) :
    (∀ s : Int, (updateSSLCertMonitorResourceData d monitor).actions.get (fmt.Sprintf_d s) =
      (monitor.ActionIDs.reverse.find? (fun a => decide (a.AlertType = s))).map
        (fun a => a.ActionID)) ∧
    (∀ k, k ∈ (updateSSLCertMonitorResourceData d monitor).actions.keys ↔
      ∃ a ∈ monitor.ActionIDs, k = fmt.Sprintf_d a.AlertType) ∧
    (updateSSLCertMonitorResourceData d monitor).actions.keys.Nodup ∧
    (updateSSLCertMonitorResourceData d
      { monitor with ActionIDs := [{ ActionID := "A1", AlertType := 2 },
                                   { ActionID := "A2", AlertType := 5 }] }).actions =
      [("2", "A1"), ("5", "A2")] := by
  refine ⟨?_, ?_, ?_, ?_⟩
  · intro s
    rw [update_actions, actionsOf_get]
    have hfun : (fun a : api.ActionRef => decide (fmt.Sprintf_d a.AlertType = fmt.Sprintf_d s)) =
        (fun a : api.ActionRef => decide (a.AlertType = s)) := by
      funext a
      by_cases h : a.AlertType = s
      · simp [h]
      · have h' : fmt.Sprintf_d a.AlertType ≠ fmt.Sprintf_d s := fun e => h (Sprintf_d_injective e)
        simp [h, h']
    rw [hfun]
  · intro k
    rw [update_actions]
    exact actionsOf_mem_keys _ k
  · rw [update_actions]
    exact actionsOf_nodup _
  · rw [update_actions]
    show actionsOf [{ ActionID := "A1", AlertType := 2 }, { ActionID := "A2", AlertType := 5 }] =
      [("2", "A1"), ("5", "A2")]
    decide

/-- C10: for a well-formed actions mapping whose keys all parse as integers,
the list built by `resourceDataToSSLCertMonitor` exists, has one pair per key,
and pairs off, position by position, with the keys arranged in strictly
increasing string order: the pair at the position of key k is (mapping[k],
integer value of k). The same list results from any other iteration order of
the mapping. In string order "10" precedes "2". -/
theorem C10_actionRefs_sorted (actionMap₁ actionMap₂ : GoMap)
    (hnodup : actionMap₁.keys.Nodup)
    (hparse : ∀ k ∈ actionMap₁.keys, ∃ n, strconv.Atoi k = .ok n)
    (hperm : actionMap₂.Perm actionMap₁) :
    ∃ (keys : List String) (refs : List api.ActionRef),
      keys.Perm actionMap₁.keys ∧
      keys.Pairwise (fun a b => stringLess a b = true) ∧
      actionRefsOf actionMap₁ = .ok refs ∧
      refs.length = actionMap₁.length ∧
      List.Forall₂ (fun k (ref : api.ActionRef) =>
        actionMap₁.get k = some ref.ActionID ∧ strconv.Atoi k = .ok ref.AlertType) keys refs ∧
      actionRefsOf actionMap₂ = .ok refs ∧
      (∀ (d : ResourceData) (client : Client) (e : api.Monitor),
        d.actions = actionMap₁ ∨ d.actions = actionMap₂ →
        (resourceDataToSSLCertMonitor d client).result = .ok e → e.ActionIDs = refs) ∧
      stringLess "10" "2" = true := by
  have hparse' : ∀ k ∈ sort.Strings actionMap₁.keys,
      ∃ n, strconv.Atoi k = .ok n ∧ k ∈ actionMap₁.keys := by
    intro k hk
    obtain ⟨n, hn⟩ := hparse k (mem_sort.mp hk)
    exact ⟨n, hn, mem_sort.mp hk⟩
  obtain ⟨refs, hrefs, hall⟩ := actionRefsLoop_ok (fun k _ => k ∈ actionMap₁.keys) actionMap₁ _ hparse'
  have hrefs₁ : actionRefsOf actionMap₁ = .ok refs := hrefs
  have hrefs₂ : actionRefsOf actionMap₂ = .ok refs := by
    have hsort : sort.Strings actionMap₂.keys = sort.Strings actionMap₁.keys :=
      sort_eq_of_perm (hperm.map Prod.fst)
    show actionRefsLoop actionMap₂ (sort.Strings actionMap₂.keys) = .ok refs
    rw [hsort, actionRefsLoop_congr actionMap₁ actionMap₂ (GoMap.get_perm hperm hnodup)]
    exact hrefs
  refine ⟨sort.Strings actionMap₁.keys, refs, sort_perm _, sort_strict hnodup, hrefs₁, ?_, ?_,
    hrefs₂, ?_, by decide⟩
  · rw [← hall.length_eq, (sort_perm _).length_eq]
    simp [GoMap.keys]
  · refine hall.imp (fun k ref hR => ⟨?_, hR.2.1⟩)
    rw [GoMap.get_of_mem_keys actionMap₁ k hR.2.2, hR.1]
  · intro d client e hd he
    have hids := build_actionIDs he
    rcases hd with hd | hd
    · rw [hd, hrefs₁] at hids
      exact (Except.ok.inj hids).symm
    · rw [hd, hrefs₂] at hids
      exact (Except.ok.inj hids).symm

/-- C10 at the mapping {"2": A1, "10": A2}, iterated in both orders: the list
built is [(A2, 10), (A1, 2)]. -/
theorem C10_actionRefs_sorted_witness :
    (GoMap.keys [("2", "A1"), ("10", "A2")]).Nodup ∧
    (∀ k ∈ GoMap.keys [("2", "A1"), ("10", "A2")], ∃ n, strconv.Atoi k = .ok n) ∧
    List.Perm [("10", "A2"), ("2", "A1")] [("2", "A1"), ("10", "A2")] ∧
    actionRefsOf [("2", "A1"), ("10", "A2")] =
      .ok [{ ActionID := "A2", AlertType := 10 }, { ActionID := "A1", AlertType := 2 }] ∧
    actionRefsOf [("10", "A2"), ("2", "A1")] = actionRefsOf [("2", "A1"), ("10", "A2")] :=
  have hnodup : (GoMap.keys [("2", "A1"), ("10", "A2")]).Nodup := by decide
  have hparse : ∀ k ∈ GoMap.keys [("2", "A1"), ("10", "A2")], ∃ n, strconv.Atoi k = .ok n := by
    intro k hk
    have hk' : k = "2" ∨ k = "10" := by simpa [GoMap.keys] using hk
    rcases hk' with e | e
    · subst e
      exact ⟨2, by decide⟩
    · subst e
      exact ⟨10, by decide⟩
  have hperm : List.Perm [("10", "A2"), ("2", "A1")] [("2", "A1"), ("10", "A2")] :=
    List.Perm.swap _ _ _
  ⟨hnodup, hparse, hperm, by decide,
    match C10_actionRefs_sorted [("2", "A1"), ("10", "A2")] [("10", "A2"), ("2", "A1")]
      hnodup hparse hperm with
    | ⟨_, _, _, _, h₁, _, _, h₂, _, _⟩ => h₂.trans h₁.symm⟩

/-- C2: when some key of the actions mapping does not parse as an integer,
`resourceDataToSSLCertMonitor` returns an error (the parse error of a key of
the mapping) and no entity, leaves the local state as it was and makes no
remote call; `SSLCertMonitorCreate` and `SSLCertMonitorUpdate` return that
error and make no remote call either. -/
theorem C2_invalid_key_aborts (d : ResourceData) (client : Client)
    (h : ∃ k ∈ d.actions.keys, ∀ n, strconv.Atoi k ≠ .ok n) :
    ∃ err, (∃ k ∈ d.actions.keys, strconv.Atoi k = .error err) ∧
      (resourceDataToSSLCertMonitor d client).result = .error err ∧
      (resourceDataToSSLCertMonitor d client).calls = [] ∧
      (resourceDataToSSLCertMonitor d client).d = d ∧
      (SSLCertMonitorCreate d client).result = some err ∧
      (SSLCertMonitorCreate d client).calls = [] ∧
      (SSLCertMonitorUpdate d client).result = some err ∧
      (SSLCertMonitorUpdate d client).calls = [] := by
  obtain ⟨k, hk, hbad⟩ := h
  obtain ⟨err, herr, k₀, hk₀, hk₀'⟩ :=
    actionRefsLoop_error d.actions (sort.Strings d.actions.keys) ⟨k, mem_sort.mpr hk, hbad⟩
  have herr' : actionRefsOf d.actions = .error err := herr
  have hbuild : resourceDataToSSLCertMonitor d client =
      { result := .error err, d := d, calls := [] } := by
    unfold resourceDataToSSLCertMonitor
    simp only [herr']
  refine ⟨err, ⟨k₀, mem_sort.mp hk₀, hk₀'⟩, ?_, ?_, ?_, ?_, ?_, ?_, ?_⟩
  · rw [hbuild]
  · rw [hbuild]
  · rw [hbuild]
  · simp only [SSLCertMonitorCreate, hbuild]
  · simp only [SSLCertMonitorCreate, hbuild]
  · simp only [SSLCertMonitorUpdate, hbuild]
  · simp only [SSLCertMonitorUpdate, hbuild]

/-- C2 at a local state whose only action key is "abc". -/
theorem C2_invalid_key_aborts_witness :
    (∃ k ∈ GoMap.keys ({ sampleData with actions := [("abc", "A1")] }).actions,
      ∀ n, strconv.Atoi k ≠ .ok n) ∧
    ∃ err, (resourceDataToSSLCertMonitor { sampleData with actions := [("abc", "A1")] }
        sampleClient).result = .error err ∧
      (resourceDataToSSLCertMonitor { sampleData with actions := [("abc", "A1")] }
        sampleClient).calls = [] ∧
      (SSLCertMonitorCreate { sampleData with actions := [("abc", "A1")] }
        sampleClient).result = some err ∧
      (SSLCertMonitorCreate { sampleData with actions := [("abc", "A1")] }
        sampleClient).calls = [] :=
  have h : ∃ k ∈ GoMap.keys ({ sampleData with actions := [("abc", "A1")] }).actions,
      ∀ n, strconv.Atoi k ≠ .ok n :=
    ⟨"abc", by decide, fun n hn => by
      have e : strconv.Atoi "abc" = .error (.num "Atoi" "abc" .ErrSyntax) := by decide
      rw [e] at hn
      exact Except.noConfusion hn⟩
  ⟨h, match C2_invalid_key_aborts { sampleData with actions := [("abc", "A1")] } sampleClient h with
    | ⟨err, _, h₁, h₂, _, h₃, h₄, _, _⟩ => ⟨err, h₁, h₂, h₃, h₄⟩⟩

/-- C3: with a blank location_profile_id, valid action keys, a default
location-profile lookup that succeeds with profile p, and the other lookups
succeeding where they are needed, `resourceDataToSSLCertMonitor` returns an
entity whose LocationProfileID is p's identifier, and the local state's
location_profile_id is p's identifier afterwards. -/
theorem C3_location_profile_default (d : ResourceData) (client : Client)
    (p : api.LocationProfile)
    (hkeys : ∀ k ∈ d.actions.keys, ∃ n, strconv.Atoi k = .ok n)
    (hblank : d.location_profile_id = "")
    (hloc : client.DefaultLocationProfile = .ok p)
    (hnot : d.notification_profile_id = "" → ∃ q, client.DefaultNotificationProfile = .ok q)
    (hthr : d.threshold_profile_id = "" → ∃ q, client.DefaultThresholdProfile = .ok q)
    (hgrp : d.user_group_ids = [] → ∃ g, client.DefaultUserGroup = .ok g) :
    ∃ e, (resourceDataToSSLCertMonitor d client).result = .ok e ∧
      e.LocationProfileID = p.ProfileID ∧
      (resourceDataToSSLCertMonitor d client).d.location_profile_id = p.ProfileID := by
  obtain ⟨refs, hrefs, -⟩ := actionRefsLoop_ok (fun _ _ => True) d.actions
    (sort.Strings d.actions.keys)
    (fun k hk => (hkeys k (mem_sort.mp hk)).imp (fun _ hn => ⟨hn, trivial⟩))
  have hrefs' : actionRefsOf d.actions = .ok refs := hrefs
  obtain ⟨np, hnp⟩ := imp_exists_swap { ProfileID := "" } hnot
  obtain ⟨tp, htp⟩ := imp_exists_swap { ProfileID := "" } hthr
  obtain ⟨ug, hug⟩ := imp_exists_swap { UserGroupID := "" } hgrp
  unfold resourceDataToSSLCertMonitor
  simp only [hrefs']
  rw [profiles_ok client _ d p np tp (fun _ => hloc) hnp htp]
  by_cases c : d.user_group_ids = []
  · simp [Outcome.andThen, resolveUserGroup, c, hug c, hblank, Set_user_group_ids]
  · simp [Outcome.andThen, resolveUserGroup, c, hblank]

/-- C3 at the sample state, with the default location profile "LP1". -/
theorem C3_location_profile_default_witness :
    sampleData.location_profile_id = "" ∧
    sampleClient.DefaultLocationProfile = .ok { ProfileID := "LP1" } ∧
    ∃ e, (resourceDataToSSLCertMonitor sampleData sampleClient).result = .ok e ∧
      e.LocationProfileID = "LP1" ∧
      (resourceDataToSSLCertMonitor sampleData sampleClient).d.location_profile_id = "LP1" :=
  ⟨rfl, rfl, C3_location_profile_default sampleData sampleClient { ProfileID := "LP1" }
    sampleData_keys_parse rfl rfl (fun _ => ⟨_, rfl⟩) (fun _ => ⟨_, rfl⟩) (fun _ => ⟨_, rfl⟩)⟩

/-- C4 fails on the code: `resourceDataToSSLCertMonitor` never changes the
local state's threshold_profile_id. At the sample state (blank threshold
profile, lookup returning "TP1") the entity gets "TP1" while the local state
keeps the blank value, although location and notification are written back. -/
theorem C4_threshold_profile_not_written_back :
    (∀ (d : ResourceData) (client : Client),
      (resourceDataToSSLCertMonitor d client).d.threshold_profile_id = d.threshold_profile_id) ∧
    sampleData.threshold_profile_id = "" ∧
    sampleClient.DefaultThresholdProfile = .ok { ProfileID := "TP1" } ∧
    (resourceDataToSSLCertMonitor sampleData sampleClient).result.toOption.map
      (fun e => e.ThresholdProfileID) = some "TP1" ∧
    (resourceDataToSSLCertMonitor sampleData sampleClient).d.threshold_profile_id = "" ∧
    (resourceDataToSSLCertMonitor sampleData sampleClient).d.threshold_profile_id ≠ "TP1" ∧
    (resourceDataToSSLCertMonitor sampleData sampleClient).d.location_profile_id = "LP1" ∧
    (resourceDataToSSLCertMonitor sampleData sampleClient).d.notification_profile_id = "NP1" := by
  exact ⟨fun d client => (build_unconditional d client).2.1, rfl, rfl, by decide, by decide,
    by decide, by decide, by decide⟩

/-- C5: with valid action keys and the profile lookups succeeding where they
are needed: if user_group_ids is empty and the default user-group lookup
succeeds with group g, the entity's UserGroupIDs and the local state's
user_group_ids are both [g]; if it is empty and the lookup fails, that error
is returned and no entity; if it is non-empty, an entity is returned whose
UserGroupIDs is the local list. Whenever user_group_ids is non-empty the
lookup is not invoked and the local list stays as it was. -/
theorem C5_user_group_default (d : ResourceData) (client : Client) :
    ((∀ k ∈ d.actions.keys, ∃ n, strconv.Atoi k = .ok n) →
      (d.location_profile_id = "" → ∃ q, client.DefaultLocationProfile = .ok q) →
      (d.notification_profile_id = "" → ∃ q, client.DefaultNotificationProfile = .ok q) →
      (d.threshold_profile_id = "" → ∃ q, client.DefaultThresholdProfile = .ok q) →
      (d.user_group_ids = [] →
        (∀ g, client.DefaultUserGroup = .ok g →
          ∃ e, (resourceDataToSSLCertMonitor d client).result = .ok e ∧
            e.UserGroupIDs = [g.UserGroupID] ∧
            (resourceDataToSSLCertMonitor d client).d.user_group_ids = [g.UserGroupID]) ∧
        (∀ err, client.DefaultUserGroup = .error err →
          (resourceDataToSSLCertMonitor d client).result = .error err)) ∧
      (d.user_group_ids ≠ [] →
        ∃ e, (resourceDataToSSLCertMonitor d client).result = .ok e ∧
          e.UserGroupIDs = d.user_group_ids)) ∧
    (d.user_group_ids ≠ [] →
      Call.DefaultUserGroup ∉ (resourceDataToSSLCertMonitor d client).calls ∧
      (resourceDataToSSLCertMonitor d client).d.user_group_ids = d.user_group_ids) := by
  refine ⟨?_, (build_unconditional d client).2.2.2⟩
  intro hkeys hloc hnot hthr
  obtain ⟨refs, hrefs, -⟩ := actionRefsLoop_ok (fun _ _ => True) d.actions
    (sort.Strings d.actions.keys)
    (fun k hk => (hkeys k (mem_sort.mp hk)).imp (fun _ hn => ⟨hn, trivial⟩))
  have hrefs' : actionRefsOf d.actions = .ok refs := hrefs
  obtain ⟨lp, hlp⟩ := imp_exists_swap { ProfileID := "" } hloc
  obtain ⟨np, hnp⟩ := imp_exists_swap { ProfileID := "" } hnot
  obtain ⟨tp, htp⟩ := imp_exists_swap { ProfileID := "" } hthr
  unfold resourceDataToSSLCertMonitor
  simp only [hrefs']
  rw [profiles_ok client _ d lp np tp hlp hnp htp]
  refine ⟨fun c => ⟨fun g hg => ?_, fun err herr => ?_⟩, fun c => ?_⟩
  · simp [Outcome.andThen, resolveUserGroup, c, hg, Set_user_group_ids]
  · simp [Outcome.andThen, resolveUserGroup, c, herr]
  · simp [Outcome.andThen, resolveUserGroup, c]

/-- C5 at the sample state (empty user_group_ids, lookup returning "UG1"). -/
theorem C5_user_group_default_witness :
    sampleData.user_group_ids = [] ∧
    sampleClient.DefaultUserGroup = .ok { UserGroupID := "UG1" } ∧
    ∃ e, (resourceDataToSSLCertMonitor sampleData sampleClient).result = .ok e ∧
      e.UserGroupIDs = ["UG1"] ∧
      (resourceDataToSSLCertMonitor sampleData sampleClient).d.user_group_ids = ["UG1"] :=
  ⟨rfl, rfl, (((C5_user_group_default sampleData sampleClient).1 sampleData_keys_parse
    (fun _ => ⟨_, rfl⟩) (fun _ => ⟨_, rfl⟩) (fun _ => ⟨_, rfl⟩)).1 rfl).1
    { UserGroupID := "UG1" } rfl⟩

/-- C6: `SSLCertMonitorDelete` makes the one call Delete(id); it returns no
error exactly when that call succeeded or its error classifies as not-found,
and otherwise returns the error of the call unchanged. -/
theorem C6_delete_swallows_not_found (d : ResourceData) (client : Client) :
    ((SSLCertMonitorDelete d client).result = none ↔
      (client.Delete d.Id = none ∨ apierrors.IsNotFound (client.Delete d.Id) = true)) ∧
    (SSLCertMonitorDelete d client).result =
      (if apierrors.IsNotFound (client.Delete d.Id) = true then none else client.Delete d.Id) ∧
    (SSLCertMonitorDelete d client).calls = [Call.Delete d.Id] := by
  unfold SSLCertMonitorDelete
  by_cases h : apierrors.IsNotFound (client.Delete d.Id) = true
  · simp [h]
  · simp [h]

/-- C7: `SSLCertMonitorExists` returns (true, nil) exactly when Get(id)
succeeds, (false, nil) exactly when it fails with an error that classifies as
not-found, (false, err) exactly when it fails with an error err that does not,
and never true together with an error. -/
theorem C7_exists_result (d : ResourceData) (client : Client) :
    ((SSLCertMonitorExists d client).result = (true, none) ↔
      ∃ m, client.Get d.Id = .ok m) ∧
    ((SSLCertMonitorExists d client).result = (false, none) ↔
      ∃ err, client.Get d.Id = .error err ∧ apierrors.IsNotFound (some err) = true) ∧
    (∀ err, (SSLCertMonitorExists d client).result = (false, some err) ↔
      (client.Get d.Id = .error err ∧ apierrors.IsNotFound (some err) = false)) ∧
    (∀ err, (SSLCertMonitorExists d client).result ≠ (true, some err)) ∧
    (SSLCertMonitorExists d client).calls = [Call.Get d.Id] := by
  unfold SSLCertMonitorExists
  cases hg : client.Get d.Id with
  | ok m => simp [apierrors.IsNotFound, apierrors.HasStatusCode]
  | error e =>
    by_cases h : apierrors.IsNotFound (some e) = true
    · simp [h]
    · simp only [h]
      simp
      simpa using h

/-- C9: in `SSLCertMonitorCreate`, an error of `resourceDataToSSLCertMonitor`
is returned unchanged, the local identity stays as it was and the client's
Create is not called; an error of the client's Create is returned unchanged
and the local identity stays as it was; when both succeed no error is
returned and the local identity is the MonitorID of the entity that the
client's Create returned. -/
theorem C9_create_outcomes (d : ResourceData) (client : Client) :
    (∀ err, (resourceDataToSSLCertMonitor d client).result = .error err →
      (SSLCertMonitorCreate d client).result = some err ∧
      (SSLCertMonitorCreate d client).d.Id = d.Id ∧
      ∀ m, Call.Create m ∉ (SSLCertMonitorCreate d client).calls) ∧
    (∀ m err, (resourceDataToSSLCertMonitor d client).result = .ok m →
      client.Create m = .error err →
      (SSLCertMonitorCreate d client).result = some err ∧
      (SSLCertMonitorCreate d client).d.Id = d.Id ∧
      (SSLCertMonitorCreate d client).calls =
        (resourceDataToSSLCertMonitor d client).calls ++ [Call.Create m]) ∧
    (∀ m created, (resourceDataToSSLCertMonitor d client).result = .ok m →
      client.Create m = .ok created →
      (SSLCertMonitorCreate d client).result = none ∧
      (SSLCertMonitorCreate d client).d.Id = created.MonitorID ∧
      (SSLCertMonitorCreate d client).calls =
        (resourceDataToSSLCertMonitor d client).calls ++ [Call.Create m]) := by
  have hid := (build_unconditional d client).1
  have hcalls := (build_unconditional d client).2.2.1
  refine ⟨fun err hb => ?_, fun m err hb hc => ?_, fun m created hb hc => ?_⟩
  · refine ⟨?_, ?_, ?_⟩
    · simp [SSLCertMonitorCreate, hb]
    · simpa [SSLCertMonitorCreate, hb, ResourceData.Id] using hid
    · intro m hm
      have hm' : Call.Create m ∈ (resourceDataToSSLCertMonitor d client).calls := by
        simpa [SSLCertMonitorCreate, hb] using hm
      have := hcalls _ hm'
      simp [Call.isDefaultLookup] at this
  · refine ⟨?_, ?_, ?_⟩
    · simp [SSLCertMonitorCreate, hb, hc]
    · simpa [SSLCertMonitorCreate, hb, hc, ResourceData.Id] using hid
    · simp [SSLCertMonitorCreate, hb, hc]
  · refine ⟨?_, ?_, ?_⟩
    · simp [SSLCertMonitorCreate, hb, hc]
    · simp [SSLCertMonitorCreate, hb, hc, ResourceData.Id, ResourceData.SetId]
    · simp [SSLCertMonitorCreate, hb, hc]

/-- C9 at the sample state: both steps succeed, and the local identity becomes
the identity "M1" assigned by the remote side. -/
theorem C9_create_outcomes_witness :
    (∃ m created, (resourceDataToSSLCertMonitor sampleData sampleClient).result = .ok m ∧
      sampleClient.Create m = .ok created ∧ created.MonitorID = "M1") ∧
    (SSLCertMonitorCreate sampleData sampleClient).result = none ∧
    (SSLCertMonitorCreate sampleData sampleClient).d.Id = "M1" :=
  match sampleData_builds with
  | ⟨m, hm⟩ =>
    have hc : sampleClient.Create m = .ok { m with MonitorID := "M1" } := rfl
    ⟨⟨m, _, hm, hc, rfl⟩,
      ((C9_create_outcomes sampleData sampleClient).2.2 m _ hm hc).1,
      ((C9_create_outcomes sampleData sampleClient).2.2 m _ hm hc).2.1⟩

end Site24x7
